import Mathlib

/-!
# Verification of the Interactive-Dashboard CSV/metrics/insights pipeline

A shallow embedding of the data pipeline of the student-placement dashboard:
the naive CSV parser (`parseCSV` in `data-table.tsx` / the file-upload
component), the metrics aggregator of `Index.tsx` (and the older variant in
the unnamed page component), the heuristic column sniffer (`getChartConfig`),
and the template insight generator (`ai-insights.tsx`, current and legacy
variants).

JavaScript strings are modelled by `String`, JS objects built by
`obj[key] = v` assignments by association lists with update-or-append
semantics (`jsSet`), `undefined`-or-string values by `Option String`, and
JS numbers by `JSNum` (an exact rational, `NaN`, or a signed infinity);
rounding of IEEE doubles is not modelled, all arithmetic is exact.
-/

/-- A parsed row / JS object: keys in insertion order, each key at most once. -/
abbrev Record := List (String × String)

/-- Property lookup `obj[k]`: `none` plays the role of `undefined`. -/
def jsGet (r : Record) (k : String) : Option String :=
  (r.find? (fun p => p.1 == k)).map (fun p => p.2)

/-- Assignment `obj[k] = v`: overwrite in place if the key exists, else append
(JS objects keep first-insertion key order). -/
def jsSet (r : Record) (k v : String) : Record :=
  if r.any (fun p => p.1 == k) then
    r.map (fun p => if p.1 == k then (k, v) else p)
  else
    r ++ [(k, v)]

/-- The keys of a record, in order. -/
def recordKeys (r : Record) : List String := r.map (fun p => p.1)

/-- JS truthiness of an `undefined`-or-string value: `undefined` and the empty
string are falsy, every other string is truthy. -/
def jsTruthy : Option String → Bool
  | none => false
  | some s => !(s == "")

/-- JS `a || b` on `undefined`-or-string values: `a` when truthy, else `b`. -/
def jsOr (a b : Option String) : Option String :=
  if jsTruthy a then a else b

/-- ASCII lower-casing of one character, as done by `String.toLowerCase()` on
the ASCII range (the only range exercised by this dashboard's data). -/
def jsCharLower (c : Char) : Char :=
  if c = 'A' then 'a' else if c = 'B' then 'b' else if c = 'C' then 'c'
  else if c = 'D' then 'd' else if c = 'E' then 'e' else if c = 'F' then 'f'
  else if c = 'G' then 'g' else if c = 'H' then 'h' else if c = 'I' then 'i'
  else if c = 'J' then 'j' else if c = 'K' then 'k' else if c = 'L' then 'l'
  else if c = 'M' then 'm' else if c = 'N' then 'n' else if c = 'O' then 'o'
  else if c = 'P' then 'p' else if c = 'Q' then 'q' else if c = 'R' then 'r'
  else if c = 'S' then 's' else if c = 'T' then 't' else if c = 'U' then 'u'
  else if c = 'V' then 'v' else if c = 'W' then 'w' else if c = 'X' then 'x'
  else if c = 'Y' then 'y' else if c = 'Z' then 'z' else c

/-- `s.toLowerCase()` (ASCII model). -/
def jsToLower (s : String) : String := ⟨s.data.map jsCharLower⟩

/-- Does `pat` occur at the very start of `hay`? -/
def listStarts : List Char → List Char → Bool
  | _, [] => true
  | [], _ :: _ => false
  | h :: t, p :: ps => h == p && listStarts t ps

/-- Does `pat` occur anywhere in `hay` (contiguously)? -/
def containsList : List Char → List Char → Bool
  | hay, pat =>
    if listStarts hay pat then true
    else
      match hay with
      | [] => false
      | _ :: t => containsList t pat

/-- `s.includes(t)`: substring containment. -/
def jsIncludes (s t : String) : Bool :=
  containsList s.data t.data

/-- `s.trim()`: drop whitespace from both ends. -/
def jsTrim (s : String) : String :=
  ⟨((s.data.dropWhile Char.isWhitespace).reverse.dropWhile
    Char.isWhitespace).reverse⟩

/-- `s.replace(/c/g, "")`: remove every occurrence of the character `c`. -/
def jsRemoveAll (s : String) (c : Char) : String :=
  ⟨s.data.filter (fun d => !(d == c))⟩

/-- JS numbers: an exact rational, `NaN`, or a signed infinity.  IEEE rounding
is not modelled; the dashboard's claims are about exact small decimals. -/
inductive JSNum where
  | nan : JSNum
  | inf (pos : Bool) : JSNum
  | num (q : ℚ) : JSNum
deriving DecidableEq, Repr

/-- Division of two finite JS numbers: `0 / 0` is `NaN`, `a / 0` for `a ≠ 0`
is a signed infinity, otherwise exact. -/
def jsDiv (a b : ℚ) : JSNum :=
  if b = 0 then (if a = 0 then JSNum.nan else JSNum.inf (0 < a))
  else JSNum.num (a / b)

/-- Multiplication of a JS number by a finite nonzero constant (used for
`* 100`); `NaN` propagates. -/
def jsMulC : JSNum → ℚ → JSNum
  | JSNum.nan, _ => JSNum.nan
  | JSNum.inf p, c => if c = 0 then JSNum.nan else JSNum.inf (p = (0 < c))
  | JSNum.num q, c => JSNum.num (q * c)

/-- Addition of JS numbers; `NaN` propagates, opposite infinities give `NaN`. -/
def jsAdd : JSNum → JSNum → JSNum
  | JSNum.nan, _ => JSNum.nan
  | _, JSNum.nan => JSNum.nan
  | JSNum.inf p, JSNum.inf q => if p = q then JSNum.inf p else JSNum.nan
  | JSNum.inf p, JSNum.num _ => JSNum.inf p
  | JSNum.num _, JSNum.inf q => JSNum.inf q
  | JSNum.num a, JSNum.num b => JSNum.num (a + b)

/-- Division of a JS number by a finite JS count; `NaN` propagates. -/
def jsDivN : JSNum → ℚ → JSNum
  | JSNum.nan, _ => JSNum.nan
  | JSNum.inf p, b => if b = 0 then JSNum.inf p else JSNum.inf (p = (0 < b))
  | JSNum.num a, b => jsDiv a b

/-- Longest leading run of decimal digits of a character list, with the rest. -/
def takeDigits : List Char → List Char × List Char
  | [] => ([], [])
  | c :: cs =>
    if c.isDigit then
      let (d, r) := takeDigits cs
      (c :: d, r)
    else ([], c :: cs)

/-- Value of a digit string read in base 10. -/
def digitsToNat (ds : List Char) : Nat :=
  ds.foldl (fun n c => 10 * n + (c.toNat - 48)) 0

/-- `parseFloat(s)`: skip leading whitespace, optional sign, digits with an
optional fractional part and an optional well-formed exponent; trailing junk
is ignored.  `none` plays the role of `NaN` (no digits at all). -/
def jsParseFloat (s : String) : Option ℚ :=
  let cs := s.data.dropWhile (fun c => c.isWhitespace)
  let signAndRest : ℚ × List Char :=
    match cs with
    | '-' :: r => (-1, r)
    | '+' :: r => (1, r)
    | _ => (1, cs)
  let sign := signAndRest.1
  let (intPart, rest₁) := takeDigits signAndRest.2
  let (fracPart, rest₂) :=
    match rest₁ with
    | '.' :: r => takeDigits r
    | _ => ([], rest₁)
  if intPart = [] ∧ fracPart = [] then none
  else
    let mant : ℚ := (digitsToNat intPart : ℚ) +
      (digitsToNat fracPart : ℚ) / ((10 : ℚ) ^ fracPart.length)
    let e : ℤ :=
      match rest₂ with
      | 'e' :: r | 'E' :: r =>
        let esignAndRest : ℤ × List Char :=
          match r with
          | '-' :: rr => (-1, rr)
          | '+' :: rr => (1, rr)
          | _ => (1, r)
        let (ed, _) := takeDigits esignAndRest.2
        if ed = [] then 0 else esignAndRest.1 * (digitsToNat ed : ℤ)
      | _ => 0
    some (sign * mant * (10 : ℚ) ^ e)

/-- `parseFloat` as a JS number (`NaN` when nothing parses). -/
def jsParseFloatN (s : String) : JSNum :=
  match jsParseFloat s with
  | some q => JSNum.num q
  | none => JSNum.nan

/-! ## CSV parser (`parseCSV` in the file-upload component) -/

/-- `s.split(sep)` for a single-character separator, as used for `"\n"` and
`","` (inner loop over the characters, accumulating the current piece). -/
def splitCharGo (sep : Char) : List Char → List Char → List String
  | [], acc => [⟨acc.reverse⟩]
  | c :: cs, acc =>
    if c == sep then ⟨acc.reverse⟩ :: splitCharGo sep cs []
    else splitCharGo sep cs (c :: acc)

/-- `s.split(sep)` for a single-character separator. -/
def splitChar (sep : Char) (s : String) : List String :=
  splitCharGo sep s.data []

/-- One cell: `value.trim().replace(/"/g, "")`. -/
def csvCell (v : String) : String := jsRemoveAll (jsTrim v) '"'

/-- The non-blank lines of the input text: `text.split("\n").filter(line => line.trim())`. -/
def csvLines (text : String) : List String :=
  (splitChar '\n' text).filter (fun line => !(jsTrim line == ""))

/-- The body of the header `reduce`: fold indexed headers into the object,
assigning `obj[header] = values[index] || ""`. -/
def mkRowGo (values : List String) (obj : Record) (l : List (Nat × String)) : Record :=
  l.foldl (fun obj p => jsSet obj p.2 (values.getD p.1 "")) obj

/-- Build one record from the header list and the value list:
`headers.reduce((obj, header, index) => { obj[header] = values[index] || ""; return obj }, {})`. -/
def mkRow (headers values : List String) : Record :=
  mkRowGo values [] headers.enum

/-- `parseCSV`: split into non-blank lines; the first line gives the headers
(comma-split, trimmed, quotes stripped); every further line is comma-split the
same way and zipped positionally against the headers. -/
def parseCSV (text : String) : List Record :=
  match csvLines text with
  | [] => []
  | headerLine :: dataLines =>
    let headers := (splitChar ',' headerLine).map csvCell
    dataLines.map (fun line =>
      mkRow headers ((splitChar ',' line).map csvCell))

/-! ## Metrics aggregator (`metrics` in `Index.tsx`) -/

/-- `student.Placement || student.Placed || student.Status`. -/
def placementVal (r : Record) : Option String :=
  jsOr (jsOr (jsGet r "Placement") (jsGet r "Placed")) (jsGet r "Status")

/-- The placed-student predicate of `Index.tsx`: the resolved placement value
is truthy and lower-cases to `"placed"` or `"yes"`, or equals `"1"`. -/
def isPlacedIdx (r : Record) : Bool :=
  match placementVal r with
  | none => false
  | some s =>
    !(s == "") &&
      (jsToLower s == "placed" || jsToLower s == "yes" || s == "1")

/-- `student.CGPA || student.cgpa`. -/
def cgpaVal (r : Record) : Option String :=
  jsOr (jsGet r "CGPA") (jsGet r "cgpa")

/-- One step of the CGPA accumulation loop: add the record's resolved CGPA to
the running `(totalCGPA, cgpaCount)` when it is truthy and parses as a float. -/
def cgpaStep (acc : ℚ × Nat) (r : Record) : ℚ × Nat :=
  match cgpaVal r with
  | none => acc
  | some s =>
    if s == "" then acc
    else
      match jsParseFloat s with
      | some q => (acc.1 + q, acc.2 + 1)
      | none => acc

/-- The CGPA accumulation loop of `Index.tsx` (`placementData.forEach`). -/
def cgpaAcc (data : List Record) : ℚ × Nat :=
  data.foldl cgpaStep (0, 0)

/-- `student['Internship Experience'] || student.Internship || student.internship`. -/
def internshipVal (r : Record) : Option String :=
  jsOr (jsOr (jsGet r "Internship Experience") (jsGet r "Internship"))
    (jsGet r "internship")

/-- The internship predicate of `Index.tsx`: truthy value that lower-cases to
`"yes"`, equals `"1"`, or parses as a float greater than 0. -/
def hasInternship (r : Record) : Bool :=
  match internshipVal r with
  | none => false
  | some s =>
    !(s == "") &&
      (jsToLower s == "yes" || s == "1" ||
        (match jsParseFloat s with
         | some q => decide (0 < q)
         | none => false))

/-- The metrics object returned by `Index.tsx`. -/
structure MetricsIdx where
  totalStudents : Nat
  placedStudents : Nat
  placementRate : JSNum
  averageCGPA : JSNum
  withInternship : Nat
  internshipRate : JSNum
deriving DecidableEq, Repr

/-- The metrics aggregator of `Index.tsx`: early zero return on no data, then
placed count, placement rate, average CGPA over parseable values, internship
count and rate, with every division guarded by a positivity test. -/
def metricsIdx (data : List Record) : MetricsIdx :=
  if data.length = 0 then
    ⟨0, 0, JSNum.num 0, JSNum.num 0, 0, JSNum.num 0⟩
  else
    let totalStudents := data.length
    let placedStudents := (data.filter isPlacedIdx).length
    let placementRate :=
      if 0 < totalStudents then
        jsMulC (jsDiv (placedStudents : ℚ) (totalStudents : ℚ)) 100
      else JSNum.num 0
    let acc := cgpaAcc data
    let averageCGPA :=
      if 0 < acc.2 then jsDiv acc.1 (acc.2 : ℚ) else JSNum.num 0
    let withInternship := (data.filter hasInternship).length
    let internshipRate :=
      if 0 < totalStudents then
        jsMulC (jsDiv (withInternship : ℚ) (totalStudents : ℚ)) 100
      else JSNum.num 0
    ⟨totalStudents, placedStudents, placementRate, averageCGPA,
      withInternship, internshipRate⟩

/-! ## Distinct-company count (the `metrics` memo of the unnamed page variant) -/

/-- `const companyFields = ['Company', 'Employer', 'Organization', 'Company_Name']`. -/
def companyFields : List String :=
  ["Company", "Employer", "Organization", "Company_Name"]

/-- The inner company loop for one student: the first field (in
`companyFields` order) whose value is truthy, trims to a nonempty string, and
whose lower-cased (untrimmed) form is not `"not placed"`; yields that value
trimmed.  The loop only breaks when a field passes the test. -/
def companyPick (r : Record) : Option String :=
  companyFields.findSome? (fun f =>
    match jsGet r f with
    | none => none
    | some s =>
      if !(s == "") && !(jsTrim s == "") && !(jsToLower s == "not placed") then
        some (jsTrim s)
      else none)

/-- `Set.add`: JS set insertion (keep first occurrence). -/
def setAdd (l : List String) (v : String) : List String :=
  if v ∈ l then l else l ++ [v]

/-- `companies.size`: fold every student's picked company into a JS set and
take its size. -/
def topCompanies (data : List Record) : Nat :=
  (data.foldl
    (fun acc r =>
      match companyPick r with
      | some v => setAdd acc v
      | none => acc)
    []).length

/-! ## Column sniffer (`getChartConfig` of the unnamed page variant) -/

/-- Does a header match the CGPA role (`cgpa` or `gpa` substring,
case-insensitive)? -/
def cgpaMatch (k : String) : Bool :=
  jsIncludes (jsToLower k) "cgpa" || jsIncludes (jsToLower k) "gpa"

/-- `keys.find(key => key.toLowerCase().includes('cgpa') || ...includes('gpa')) || 'CGPA'`. -/
def cgpaKeyOf (keys : List String) : String :=
  match keys.find? cgpaMatch with
  | some k => k
  | none => "CGPA"

/-! ## Insight generator (`generateInsights` in `ai-insights.tsx`) -/

/-- `data.find(record => Object.keys(record).some(p))` is truthy iff some
record has a key satisfying `p` (a found record object is always truthy). -/
def hasKeyMatching (data : List Record) (p : String → Bool) : Bool :=
  data.any (fun r => r.any (fun kv => p kv.1))

/-- The placed predicate used inside the insight generator: only
`record.Placement || record.Placed`, accepting lower-case `"placed"` or the
exact string `"1"` (no `"yes"`, no `Status` fallback). -/
def insightPlaced (r : Record) : Bool :=
  match jsOr (jsGet r "Placement") (jsGet r "Placed") with
  | none => false
  | some s => !(s == "") && (jsToLower s == "placed" || s == "1")

/-- `parseFloat(record.CGPA || record.cgpa || "0")` for one record. -/
def insightCgpaNum (r : Record) : JSNum :=
  match jsOr (jsOr (jsGet r "CGPA") (jsGet r "cgpa")) (some "0") with
  | none => JSNum.nan
  | some s => jsParseFloatN s

/-- The average CGPA interpolated into the "CGPA Impact" insight: the sum of
the parsed CGPA of every placed student divided by the number of placed
students — with no guard against that number being zero. -/
def insightAvgCGPA (data : List Record) : JSNum :=
  let placed := data.filter insightPlaced
  jsDivN (placed.foldl (fun sum r => jsAdd sum (insightCgpaNum r)) (JSNum.num 0))
    ((placed.length : ℚ))

/-- The internship predicate of the insight generator:
`record['Internship Experience'] || record.Internship` truthy and lower-case
`"yes"` or parsing as a float greater than 0. -/
def insightInternship (r : Record) : Bool :=
  match jsOr (jsGet r "Internship Experience") (jsGet r "Internship") with
  | none => false
  | some s =>
    !(s == "") &&
      (jsToLower s == "yes" ||
        (match jsParseFloat s with
         | some q => decide (0 < q)
         | none => false))

/-- The internship placement rate interpolated into the "Internship Experience
Advantage" insight: placed-within-internship count over internship count,
times 100 — with no guard against an empty internship subset. -/
def insightInternshipRate (data : List Record) : JSNum :=
  let withIntern := data.filter insightInternship
  jsMulC
    (jsDiv (((withIntern.filter insightPlaced).length : ℚ))
      ((withIntern.length : ℚ)))
    100

/-- `Set(data.map(record => record["Academic Performance"]).filter(Boolean)).size`. -/
def perfLevelsCount (data : List Record) : Nat :=
  (((data.map (fun r => jsGet r "Academic Performance")).filterMap id).filter
    (fun s => !(s == ""))).dedup.length

/-- One insight card.  The description is a fixed template; `param` carries
the one numeric value interpolated into it, when the template has one
(string formatting itself is presentation, not modelled). -/
structure Insight where
  id : String
  type : String
  title : String
  param : Option JSNum
  confidence : ℚ
  impact : String
deriving DecidableEq, Repr

/-- The current insight generator (`ai-insights.tsx`): seven catalog entries,
each gated by the presence of a key matching its role's substrings, pushed in
catalog order.  Empty data generates nothing. -/
def generateInsights (data : List Record) : List Insight :=
  if data.length = 0 then []
  else
    (if hasKeyMatching data (fun k =>
        jsIncludes (jsToLower k) "cgpa" || jsIncludes (jsToLower k) "gpa") then
      [⟨"1", "trend", "CGPA Impact on Placement Success",
        some (insightAvgCGPA data), 92/100, "high"⟩]
    else []) ++
    (if hasKeyMatching data (fun k => jsIncludes (jsToLower k) "internship") then
      [⟨"2", "recommendation", "Internship Experience Advantage",
        some (insightInternshipRate data), 85/100, "high"⟩]
    else []) ++
    (if hasKeyMatching data (fun k =>
        jsIncludes (jsToLower k) "academic" &&
          jsIncludes (jsToLower k) "performance") then
      [⟨"3", "trend", "Academic Performance Distribution",
        some (JSNum.num (perfLevelsCount data : ℚ)), 80/100, "medium"⟩]
    else []) ++
    (if hasKeyMatching data (fun k => jsIncludes (jsToLower k) "communication") then
      [⟨"4", "recommendation", "Communication Skills Development", none,
        78/100, "high"⟩]
    else []) ++
    (if hasKeyMatching data (fun k => jsIncludes (jsToLower k) "project") then
      [⟨"5", "prediction", "Project Portfolio Impact", none, 83/100, "high"⟩]
    else []) ++
    (if hasKeyMatching data (fun k => jsIncludes (jsToLower k) "iq") then
      [⟨"6", "anomaly", "Holistic Assessment Insight", none, 75/100, "medium"⟩]
    else []) ++
    (if hasKeyMatching data (fun k =>
        jsIncludes (jsToLower k) "extra" ||
          jsIncludes (jsToLower k) "curricular") then
      [⟨"7", "recommendation", "Well-Rounded Development", none, 70/100,
        "medium"⟩]
    else [])

/-! ## Legacy insight generator (the unnamed `ai-insights` variant) -/

/-- `record.Department || record.Course || record.Branch` (possibly
`undefined`). -/
def deptVal (r : Record) : Option String :=
  jsOr (jsOr (jsGet r "Department") (jsGet r "Course")) (jsGet r "Branch")

/-- JS set insertion over possibly-`undefined` values. -/
def setAddO (l : List (Option String)) (v : Option String) : List (Option String) :=
  if v ∈ l then l else l ++ [v]

/-- `Set(data.map(record => record.Department || record.Course || record.Branch)).size`. -/
def deptSetSize (data : List Record) : Nat :=
  ((data.map deptVal).foldl setAddO []).length

/-- `data.map(record => record.Company || record.Employer).filter(Boolean)`. -/
def legacyCompanies (data : List Record) : List (Option String) :=
  (data.map (fun r => jsOr (jsGet r "Company") (jsGet r "Employer"))).filter
    jsTruthy

/-- `Set(companies).size` in the legacy generator. -/
def legacyCompanySetSize (data : List Record) : Nat :=
  ((legacyCompanies data).foldl setAddO []).length

/-- The always-present "Skills Development Priority" catalog entry of the
legacy generator (no gating predicate). -/
def skillsInsight : Insight :=
  ⟨"6", "recommendation", "Skills Development Priority", none, 75/100, "high"⟩

/-- The legacy insight generator (the unnamed `ai-insights` variant): five
gated entries plus the ungated skills entry, pushed in catalog order. -/
def generateInsightsLegacy (data : List Record) : List Insight :=
  if data.length = 0 then []
  else
    (if 1 < deptSetSize data then
      [⟨"1", "trend", "Department Performance Variance",
        some (JSNum.num (deptSetSize data : ℚ)), 85/100, "high"⟩]
    else []) ++
    (if hasKeyMatching data (fun k =>
        jsIncludes (jsToLower k) "salary" ||
          jsIncludes (jsToLower k) "package" ||
          jsIncludes (jsToLower k) "ctc") then
      [⟨"2", "prediction", "Salary Growth Trajectory", none, 78/100, "high"⟩]
    else []) ++
    (if hasKeyMatching data (fun k => jsIncludes (jsToLower k) "gender") then
      [⟨"3", "recommendation", "Diversity Enhancement Opportunity", none,
        72/100, "medium"⟩]
    else []) ++
    (if 0 < (legacyCompanies data).length then
      [⟨"4", "trend", "Industry Preference Shift",
        some (JSNum.num (legacyCompanySetSize data : ℚ)), 80/100, "medium"⟩]
    else []) ++
    (if hasKeyMatching data (fun k =>
        jsIncludes (jsToLower k) "cgpa" || jsIncludes (jsToLower k) "gpa" ||
          jsIncludes (jsToLower k) "grade") then
      [⟨"5", "anomaly", "Academic Performance Correlation", none, 88/100,
        "high"⟩]
    else []) ++
    [skillsInsight]

/-! ## Claim-side definitions (stated from the spec's words, for comparison) -/

/-- Stated from the claim: a record counts as placed when its resolved
placement-status value, lower-cased, is in the accepted-positive set. -/
def claimPlaced (r : Record) : Bool :=
  match placementVal r with
  | none => false
  | some s => decide (jsToLower s ∈ (["placed", "yes", "1"] : List String))

/-- Stated from the claim: the record's CGPA value when it parses as a float
(`none` when the resolved value is absent, empty or unparseable). -/
def cgpaParse (r : Record) : Option ℚ :=
  match cgpaVal r with
  | none => none
  | some s => if s == "" then none else jsParseFloat s

/-- Stated from the claim: the per-record CGPA values that parse as floats
(records whose resolved value is absent, empty or unparseable are skipped). -/
def parsedCgpas (data : List Record) : List ℚ :=
  data.filterMap cgpaParse

/-- Stated from the claim: the number of unique non-empty trimmed string
values of the `Company` field, excluding the literal sentinel `"not placed"`
compared case-insensitively (on the trimmed value). -/
def claimCompanyCount (data : List Record) : Nat :=
  (((data.filterMap (fun r => jsGet r "Company")).map jsTrim).filter
    (fun v => !(v == "") && !(jsToLower v == "not placed"))).dedup.length

/-! ## Basic lemmas about the JS object model -/


theorem find?_setMap_self (ps : Record) (k v : String)
    (hin : ps.any (fun p => p.1 == k) = true) :
    (ps.map (fun p => if p.1 == k then (k, v) else p)).find?
      (fun p => p.1 == k) = some (k, v) := by
  induction ps with
  | nil => simp at hin
  | cons p ps ih =>
    rw [List.map_cons]
    by_cases hp : (p.1 == k) = true
    · rw [if_pos hp]
      simp only [List.find?_cons, beq_self_eq_true, if_true]
    · rw [if_neg hp]
      have hp' : (p.1 == k) = false := by simpa using hp
      simp only [List.find?_cons, hp', Bool.false_eq_true, if_false]
      exact ih (by simpa [hp'] using hin)

theorem find?_setMap_ne (ps : Record) (k v k' : String) (hne : k' ≠ k) :
    (ps.map (fun p => if p.1 == k then (k, v) else p)).find?
      (fun p => p.1 == k') = ps.find? (fun p => p.1 == k') := by
  have hkk : (k == k') = false := beq_eq_false_iff_ne.mpr (Ne.symm hne)
  induction ps with
  | nil => rfl
  | cons p ps ih =>
    rw [List.map_cons]
    by_cases hp : (p.1 == k) = true
    · have hpk : p.1 = k := by simpa using hp
      have h2 : (p.1 == k') = false := by rw [hpk]; exact hkk
      rw [if_pos hp]
      simp only [List.find?_cons, h2, hkk, Bool.false_eq_true, if_false, ih]
    · rw [if_neg hp]
      simp only [List.find?_cons, ih]

theorem jsGet_jsSet_self (r : Record) (k v : String) :
    jsGet (jsSet r k v) k = some v := by
  unfold jsGet jsSet
  by_cases h : r.any (fun p => p.1 == k) = true
  · rw [if_pos h, find?_setMap_self r k v h]; rfl
  · rw [if_neg h, List.find?_append]
    have hnone : r.find? (fun p => p.1 == k) = none := by
      rw [List.find?_eq_none]
      intro x hx hpx
      exact h (List.any_of_mem hx hpx)
    simp [hnone]

theorem jsGet_jsSet_ne (r : Record) (k v k' : String) (hne : k' ≠ k) :
    jsGet (jsSet r k v) k' = jsGet r k' := by
  unfold jsGet jsSet
  by_cases h : r.any (fun p => p.1 == k) = true
  · rw [if_pos h, find?_setMap_ne r k v k' hne]
  · rw [if_neg h, List.find?_append]
    have : List.find? (fun p => p.1 == k') [(k, v)] = none := by
      simp [show k ≠ k' from fun hh => hne hh.symm]
    rw [this]
    cases r.find? (fun p => p.1 == k') <;> rfl

theorem recordKeys_jsSet (r : Record) (k v k' : String) :
    (k' ∈ recordKeys (jsSet r k v)) ↔ (k' ∈ recordKeys r ∨ k' = k) := by
  unfold recordKeys jsSet
  by_cases h : r.any (fun p => p.1 == k) = true
  · rw [if_pos h, List.map_map]
    simp only [List.mem_map, Function.comp]
    constructor
    · rintro ⟨p, hp, heq⟩
      by_cases hpk : (p.1 == k) = true
      · right
        rw [if_pos hpk] at heq
        exact heq.symm
      · left
        rw [if_neg hpk] at heq
        exact ⟨p, hp, heq⟩
    · rintro (⟨p, hp, heq⟩ | hk)
      · refine ⟨p, hp, ?_⟩
        by_cases hpk : (p.1 == k) = true
        · rw [if_pos hpk]
          show k = k'
          rw [← (show p.1 = k by simpa using hpk)]
          exact heq
        · rw [if_neg hpk]; exact heq
      · rw [List.any_eq_true] at h
        obtain ⟨p, hp, hpk⟩ := h
        exact ⟨p, hp, by rw [if_pos hpk]; exact hk.symm⟩
  · rw [if_neg h, List.map_append]
    simp

theorem recordKeys_mkRowGo (values : List String) (l : List (Nat × String)) :
    ∀ (obj : Record) (k : String),
      k ∈ recordKeys (mkRowGo values obj l) ↔
        k ∈ recordKeys obj ∨ k ∈ l.map Prod.snd := by
  induction l with
  | nil => intro obj k; simp [mkRowGo]
  | cons p ps ih =>
    intro obj k
    show k ∈ recordKeys (mkRowGo values (jsSet obj p.2 (values.getD p.1 "")) ps) ↔ _
    rw [ih, recordKeys_jsSet]
    simp only [List.map_cons, List.mem_cons]
    tauto

theorem jsGet_mkRowGo_of_not_mem (values : List String) (l : List (Nat × String)) :
    ∀ (obj : Record) (k : String), k ∉ l.map Prod.snd →
      jsGet (mkRowGo values obj l) k = jsGet obj k := by
  induction l with
  | nil => intro obj k _; rfl
  | cons p ps ih =>
    intro obj k hk
    rw [List.map_cons, List.mem_cons] at hk
    push_neg at hk
    show jsGet (mkRowGo values (jsSet obj p.2 (values.getD p.1 "")) ps) k = _
    rw [ih _ k hk.2, jsGet_jsSet_ne _ _ _ _ hk.1]

theorem jsGet_mkRowGo_enumFrom (values : List String) (hs : List String) :
    ∀ (n : Nat) (obj : Record), hs.Nodup →
      ∀ i (hi : i < hs.length),
        jsGet (mkRowGo values obj (hs.enumFrom n)) (hs.get ⟨i, hi⟩) =
          some (values.getD (n + i) "") := by
  induction hs with
  | nil => intro n obj _ i hi; exact absurd hi (by simp)
  | cons h t ih =>
    intro n obj hnd i hi
    rw [List.nodup_cons] at hnd
    show jsGet (mkRowGo values (jsSet obj h (values.getD n ""))
      (t.enumFrom (n + 1))) _ = _
    cases i with
    | zero =>
      rw [show (h :: t).get ⟨0, hi⟩ = h from rfl,
        jsGet_mkRowGo_of_not_mem values _ _ h
          (by rw [List.enumFrom_map_snd]; exact hnd.1),
        jsGet_jsSet_self, Nat.add_zero]
    | succ j =>
      have hj : j < t.length := Nat.lt_of_succ_lt_succ hi
      rw [show (h :: t).get ⟨j + 1, hi⟩ = t.get ⟨j, hj⟩ from rfl,
        ih (n + 1) _ hnd.2 j hj, Nat.add_assoc, Nat.add_comm 1 j]

theorem mkRowGo_congr_values (hs : List String) :
    ∀ (n : Nat) (obj : Record) (v₁ v₂ : List String),
      (∀ i, n ≤ i → i < n + hs.length → v₁.getD i "" = v₂.getD i "") →
      mkRowGo v₁ obj (hs.enumFrom n) = mkRowGo v₂ obj (hs.enumFrom n) := by
  induction hs with
  | nil => intro n obj v₁ v₂ _; rfl
  | cons h t ih =>
    intro n obj v₁ v₂ hv
    show mkRowGo v₁ (jsSet obj h (v₁.getD n "")) (t.enumFrom (n + 1)) =
      mkRowGo v₂ (jsSet obj h (v₂.getD n "")) (t.enumFrom (n + 1))
    rw [hv n (Nat.le_refl n) (by simp)]
    exact ih (n + 1) _ v₁ v₂ (fun i h1 h2 => hv i (Nat.le_of_succ_le h1)
      (by simp [List.length_cons] at *; omega))

/-! ## Lower-casing lemmas -/

/-- The 26 ASCII uppercase letters. -/
def upperChars : List Char :=
  ['A','B','C','D','E','F','G','H','I','J','K','L','M',
   'N','O','P','Q','R','S','T','U','V','W','X','Y','Z']

theorem jsCharLower_not_upper {c : Char} (hc : c ∉ upperChars) : jsCharLower c = c := by
  have hn : ∀ d : Char, d ∈ upperChars → ¬ (c = d) := fun d hd he => hc (he ▸ hd)
  unfold jsCharLower
  rw [if_neg (hn 'A' (by decide)), if_neg (hn 'B' (by decide)),
    if_neg (hn 'C' (by decide)), if_neg (hn 'D' (by decide)),
    if_neg (hn 'E' (by decide)), if_neg (hn 'F' (by decide)),
    if_neg (hn 'G' (by decide)), if_neg (hn 'H' (by decide)),
    if_neg (hn 'I' (by decide)), if_neg (hn 'J' (by decide)),
    if_neg (hn 'K' (by decide)), if_neg (hn 'L' (by decide)),
    if_neg (hn 'M' (by decide)), if_neg (hn 'N' (by decide)),
    if_neg (hn 'O' (by decide)), if_neg (hn 'P' (by decide)),
    if_neg (hn 'Q' (by decide)), if_neg (hn 'R' (by decide)),
    if_neg (hn 'S' (by decide)), if_neg (hn 'T' (by decide)),
    if_neg (hn 'U' (by decide)), if_neg (hn 'V' (by decide)),
    if_neg (hn 'W' (by decide)), if_neg (hn 'X' (by decide)),
    if_neg (hn 'Y' (by decide)), if_neg (hn 'Z' (by decide))]

theorem jsCharLower_eq_one {c : Char} (h : jsCharLower c = '1') : c = '1' := by
  by_cases hc : c ∈ upperChars
  · fin_cases hc <;> exact absurd h (by decide)
  · rw [jsCharLower_not_upper hc] at h
    exact h

theorem jsToLower_eq_one {s : String} : jsToLower s = "1" ↔ s = "1" := by
  constructor
  · intro h
    obtain ⟨l⟩ := s
    have hd : l.map jsCharLower = ['1'] := congrArg String.data h
    cases l with
    | nil => simp at hd
    | cons c cs =>
      rw [List.map_cons] at hd
      injection hd with h1 h2
      have hc := jsCharLower_eq_one h1
      have hcs : cs = [] := List.map_eq_nil_iff.mp h2
      subst hc; subst hcs; rfl
  · intro h; subst h; decide

theorem isPlacedIdx_eq_claimPlaced (r : Record) : isPlacedIdx r = claimPlaced r := by
  unfold isPlacedIdx claimPlaced
  cases hv : placementVal r with
  | none => rfl
  | some s =>
    rw [Bool.eq_iff_iff]
    simp only [Bool.and_eq_true, Bool.or_eq_true, Bool.not_eq_true', beq_iff_eq,
      beq_eq_false_iff_ne, decide_eq_true_eq, List.mem_cons,
      List.mem_singleton, List.not_mem_nil, or_false]
    constructor
    · rintro ⟨hne, (h | h) | h⟩
      · exact Or.inl h
      · exact Or.inr (Or.inl h)
      · subst h
        exact Or.inr (Or.inr (by decide))
    · rintro (h | h | h)
      · refine ⟨?_, Or.inl (Or.inl h)⟩
        intro he; subst he; exact absurd h (by decide)
      · refine ⟨?_, Or.inl (Or.inr h)⟩
        intro he; subst he; exact absurd h (by decide)
      · have hs := jsToLower_eq_one.mp h
        subst hs
        exact ⟨by decide, Or.inr rfl⟩

theorem cgpaStep_eq (acc : ℚ × Nat) (r : Record) :
    cgpaStep acc r =
      match cgpaParse r with
      | none => acc
      | some q => (acc.1 + q, acc.2 + 1) := by
  unfold cgpaStep cgpaParse
  cases cgpaVal r with
  | none => rfl
  | some s =>
    dsimp only
    by_cases hs : (s == "") = true
    · simp [hs]
    · rw [Bool.not_eq_true] at hs
      simp only [hs, Bool.false_eq_true, if_false]
      cases jsParseFloat s <;> rfl

theorem cgpaAcc_go (data : List Record) :
    ∀ (t : ℚ) (c : Nat),
      data.foldl cgpaStep (t, c) =
        (t + (parsedCgpas data).sum, c + (parsedCgpas data).length) := by
  induction data with
  | nil => intro t c; simp [parsedCgpas]
  | cons r rs ih =>
    intro t c
    rw [List.foldl_cons, cgpaStep_eq]
    unfold parsedCgpas
    rw [List.filterMap_cons]
    cases hq : cgpaParse r with
    | none =>
      simpa [parsedCgpas] using ih t c
    | some q =>
      rw [ih (t + q) (c + 1)]
      simp only [List.sum_cons, List.length_cons, Prod.mk.injEq, parsedCgpas]
      exact ⟨by ring, by omega⟩

theorem cgpaAcc_eq (data : List Record) :
    cgpaAcc data = ((parsedCgpas data).sum, (parsedCgpas data).length) := by
  unfold cgpaAcc
  rw [cgpaAcc_go]
  simp

attribute [local semireducible] Rat.add Rat.mul Rat.sub Rat.inv

/-! ## C1: round-trip on well-formed input -/

/-- **C1**: for every well-formed CSV text whose non-blank lines are a header
line followed by `N` data rows, `parseCSV` returns exactly `N` records, one
per data row in original order, and every record's key set is exactly the
header set. -/
theorem parseCSV_roundtrip (text headerLine : String) (dataLines : List String)
    (hsplit : csvLines text = headerLine :: dataLines) :
    (parseCSV text).length = dataLines.length ∧
    parseCSV text = dataLines.map (fun line =>
      mkRow ((splitChar ',' headerLine).map csvCell)
        ((splitChar ',' line).map csvCell)) ∧
    ∀ r ∈ parseCSV text, ∀ k,
      (k ∈ recordKeys r ↔ k ∈ (splitChar ',' headerLine).map csvCell) := by
  have hps : parseCSV text = dataLines.map (fun line =>
      mkRow ((splitChar ',' headerLine).map csvCell)
        ((splitChar ',' line).map csvCell)) := by
    unfold parseCSV
    rw [hsplit]
  refine ⟨by rw [hps]; simp, hps, ?_⟩
  intro r hr k
  rw [hps] at hr
  simp only [List.mem_map] at hr
  obtain ⟨line, _, hrow⟩ := hr
  subst hrow
  unfold mkRow
  rw [recordKeys_mkRowGo]
  simp [List.enum_map_snd, recordKeys]

/-- Witness for C1 at Scenario A's input. -/
theorem parseCSV_roundtrip_witness :
    (parseCSV "Name,Status\nA,Placed\nB,Not Placed\n").length =
      (["A,Placed", "B,Not Placed"] : List String).length ∧
    parseCSV "Name,Status\nA,Placed\nB,Not Placed\n" =
      (["A,Placed", "B,Not Placed"] : List String).map (fun line =>
        mkRow ((splitChar ',' "Name,Status").map csvCell)
          ((splitChar ',' line).map csvCell)) ∧
    ∀ r ∈ parseCSV "Name,Status\nA,Placed\nB,Not Placed\n", ∀ k,
      (k ∈ recordKeys r ↔ k ∈ (splitChar ',' "Name,Status").map csvCell) :=
  parseCSV_roundtrip "Name,Status\nA,Placed\nB,Not Placed\n" "Name,Status"
    ["A,Placed", "B,Not Placed"] (by decide)

/-! ## C7: silent degradation of the parser -/

/-- **C7**: `parseCSV` on empty or whitespace-only input returns the empty
sequence; a row's missing positions default to the empty string, and values
beyond the header count are ignored. -/
theorem parseCSV_degrade (text : String) (headers values : List String)
    (hblank : ∀ line ∈ splitChar '\n' text, jsTrim line = "")
    (hnd : headers.Nodup) (i : Nat) (hi : i < headers.length) :
    parseCSV text = [] ∧
    jsGet (mkRow headers values) (headers.get ⟨i, hi⟩) =
      some (values.getD i "") ∧
    mkRow headers values = mkRow headers (values.take headers.length) := by
  refine ⟨?_, ?_, ?_⟩
  · unfold parseCSV csvLines
    rw [List.filter_eq_nil_iff.mpr (fun line hline => by
      simp [hblank line hline])]
  · have h := jsGet_mkRowGo_enumFrom values headers 0 [] hnd i hi
    unfold mkRow
    simpa using h
  · unfold mkRow
    exact mkRowGo_congr_values headers 0 [] values
      (values.take headers.length) (fun j _ hj => by
        rw [Nat.zero_add] at hj
        rw [List.getD_eq_getElem?_getD, List.getD_eq_getElem?_getD,
          List.getElem?_take_of_lt hj])

/-- Witness for C7: whitespace-only text, a short row against three headers. -/
theorem parseCSV_degrade_witness :
    parseCSV "   \n\n" = [] ∧
    jsGet (mkRow ["a", "b", "c"] ["1"])
      ((["a", "b", "c"] : List String).get ⟨1, by decide⟩) =
      some ((["1"] : List String).getD 1 "") ∧
    mkRow ["a", "b", "c"] ["1"] =
      mkRow ["a", "b", "c"] (["1"].take (["a", "b", "c"] : List String).length) :=
  parseCSV_degrade "   \n\n" ["a", "b", "c"] ["1"] (by decide) (by decide) 1
    (by decide)

/-! ## C2: Scenario A and the placed-count characterisation -/

/-- **C2**: parsing `"Name,Status\nA,Placed\nB,Not Placed\n"` yields 2
records with `placedStudents = 1` and `placementRate = 50`; in general the
placed count is exactly the number of records whose resolved placement-status
value, lower-cased, is in the accepted-positive set, and every record counts
toward the total. -/
theorem metrics_placedCount_spec :
    (parseCSV "Name,Status\nA,Placed\nB,Not Placed\n").length = 2 ∧
    (metricsIdx (parseCSV "Name,Status\nA,Placed\nB,Not Placed\n")).placedStudents = 1 ∧
    (metricsIdx (parseCSV "Name,Status\nA,Placed\nB,Not Placed\n")).placementRate =
      JSNum.num 50 ∧
    ∀ data : List Record,
      (metricsIdx data).placedStudents = data.countP claimPlaced ∧
      (metricsIdx data).totalStudents = data.length := by
  refine ⟨by decide, by decide, by decide, ?_⟩
  intro data
  have hfun : isPlacedIdx = claimPlaced := funext isPlacedIdx_eq_claimPlaced
  unfold metricsIdx
  by_cases h : data.length = 0
  · rw [if_pos h]
    obtain rfl := List.length_eq_zero.mp h
    exact ⟨rfl, rfl⟩
  · rw [if_neg h]
    refine ⟨?_, rfl⟩
    show (data.filter isPlacedIdx).length = _
    rw [List.countP_eq_length_filter, hfun]

/-! ## C4: Scenario B and the average-CGPA characterisation -/

/-- **C4**: for `"Name,CGPA\nA,8.5\nB,not_a_number\n"` the average CGPA is
`8.5`, computed over the single parseable value; in general the average is
the sum of the values that parse divided by their count, and `0` when none
parse. -/
theorem metrics_avgCGPA_spec :
    (metricsIdx (parseCSV "Name,CGPA\nA,8.5\nB,not_a_number\n")).averageCGPA =
      JSNum.num (17/2) ∧
    ∀ data : List Record,
      (metricsIdx data).averageCGPA =
        (if (parsedCgpas data).length = 0 then JSNum.num 0
         else JSNum.num ((parsedCgpas data).sum /
           ((parsedCgpas data).length : ℚ))) := by
  refine ⟨by decide, ?_⟩
  intro data
  unfold metricsIdx
  by_cases h : data.length = 0
  · rw [if_pos h]
    obtain rfl := List.length_eq_zero.mp h
    simp [parsedCgpas]
  · rw [if_neg h]
    show (if 0 < (cgpaAcc data).2 then
        jsDiv (cgpaAcc data).1 ((cgpaAcc data).2 : ℚ) else JSNum.num 0) = _
    rw [cgpaAcc_eq]
    by_cases hl : (parsedCgpas data).length = 0
    · rw [if_neg (by simp [hl]), if_pos hl]
    · rw [if_pos (Nat.pos_of_ne_zero hl), if_neg hl]
      unfold jsDiv
      rw [if_neg (by exact_mod_cast hl)]

/-! ## C6: empty dataset and absence of division by zero -/

/-- **C6**: the empty dataset yields all-zero metrics, and on every dataset
each rate and average of the metrics object is a finite number (never `NaN`
or an infinity) — no division by zero is ever performed. -/
theorem metrics_no_div_by_zero :
    metricsIdx [] = ⟨0, 0, JSNum.num 0, JSNum.num 0, 0, JSNum.num 0⟩ ∧
    ∀ data : List Record,
      (∃ q, (metricsIdx data).placementRate = JSNum.num q) ∧
      (∃ q, (metricsIdx data).averageCGPA = JSNum.num q) ∧
      (∃ q, (metricsIdx data).internshipRate = JSNum.num q) := by
  refine ⟨rfl, ?_⟩
  intro data
  unfold metricsIdx
  by_cases h : data.length = 0
  · rw [if_pos h]
    exact ⟨⟨0, rfl⟩, ⟨0, rfl⟩, ⟨0, rfl⟩⟩
  · rw [if_neg h]
    have hq : ((data.length : ℚ)) ≠ 0 := by exact_mod_cast h
    have hpos : 0 < data.length := Nat.pos_of_ne_zero h
    refine ⟨⟨((data.filter isPlacedIdx).length : ℚ) / (data.length : ℚ) * 100, ?_⟩,
      ?_, ⟨((data.filter hasInternship).length : ℚ) / (data.length : ℚ) * 100, ?_⟩⟩
    · show (if 0 < data.length then
          jsMulC (jsDiv ((data.filter isPlacedIdx).length : ℚ)
            ((data.length : ℚ))) 100 else JSNum.num 0) = _
      rw [if_pos hpos]
      unfold jsDiv
      rw [if_neg hq]
      rfl
    · by_cases hc : 0 < (cgpaAcc data).2
      · refine ⟨(cgpaAcc data).1 / ((cgpaAcc data).2 : ℚ), ?_⟩
        show (if 0 < (cgpaAcc data).2 then
            jsDiv (cgpaAcc data).1 ((cgpaAcc data).2 : ℚ) else JSNum.num 0) = _
        rw [if_pos hc]
        unfold jsDiv
        rw [if_neg (by exact_mod_cast Nat.pos_iff_ne_zero.mp hc)]
      · refine ⟨0, ?_⟩
        show (if 0 < (cgpaAcc data).2 then
            jsDiv (cgpaAcc data).1 ((cgpaAcc data).2 : ℚ) else JSNum.num 0) = _
        rw [if_neg hc]
    · show (if 0 < data.length then
          jsMulC (jsDiv ((data.filter hasInternship).length : ℚ)
            ((data.length : ℚ))) 100 else JSNum.num 0) = _
      rw [if_pos hpos]
      unfold jsDiv
      rw [if_neg hq]
      rfl

/-! ## C9: order-independence of the metrics -/

/-- **C9**: the metrics aggregation is deterministic and order-independent:
permuting the dataset leaves every field of the metrics object unchanged
(numeric fields are modelled as exact rationals). -/
theorem metrics_perm_invariant (d₁ d₂ : List Record) (h : d₁.Perm d₂) :
    metricsIdx d₁ = metricsIdx d₂ := by
  have hlen := h.length_eq
  have hplaced : (d₁.filter isPlacedIdx).length = (d₂.filter isPlacedIdx).length :=
    (h.filter _).length_eq
  have hintern : (d₁.filter hasInternship).length =
      (d₂.filter hasInternship).length :=
    (h.filter _).length_eq
  have hacc : cgpaAcc d₁ = cgpaAcc d₂ := by
    rw [cgpaAcc_eq, cgpaAcc_eq]
    have hperm : (parsedCgpas d₁).Perm (parsedCgpas d₂) := h.filterMap _
    rw [hperm.sum_eq, hperm.length_eq]
  unfold metricsIdx
  rw [hlen, hplaced, hintern, hacc]

/-- Witness for C9: swapping two concrete records leaves the metrics equal. -/
theorem metrics_perm_invariant_witness :
    metricsIdx [[("Name", "A"), ("Status", "Placed")],
        [("Name", "B"), ("CGPA", "8.5")]] =
      metricsIdx [[("Name", "B"), ("CGPA", "8.5")],
        [("Name", "A"), ("Status", "Placed")]] :=
  metrics_perm_invariant _ _ (List.Perm.swap _ _ _)

/-! ## C3: role-resolution priority -/

/-- **C3 counterexample**: for the header order `["Academic_GPA", "CGPA"]`
(a header set containing both names) the CGPA role resolves to
`"Academic_GPA"`, not `"CGPA"` — the first *positional* match wins, not the
more exact name. -/
theorem cgpaKey_priority_cex :
    cgpaKeyOf ["Academic_GPA", "CGPA"] = "Academic_GPA" ∧
    cgpaKeyOf ["Academic_GPA", "CGPA"] ≠ "CGPA" := by decide

theorem find?_first_of_prefix_false {p : String → Bool} :
    ∀ (pre : List String) (k : String) (post : List String),
      (∀ k' ∈ pre, p k' = false) → p k = true →
      (pre ++ k :: post).find? p = some k := by
  intro pre
  induction pre with
  | nil =>
    intro k post _ hk
    rw [List.nil_append]
    exact List.find?_cons_of_pos _ hk
  | cons q qs ih =>
    intro k post hpre hk
    rw [List.cons_append,
      List.find?_cons_of_neg _ (by simp [hpre q (List.mem_cons_self q qs)])]
    exact ih k post (fun k' hk' => hpre k' (List.mem_cons_of_mem q hk')) hk

/-- **C3 (amended)**: role resolution returns the first header (in header
order) matching a candidate substring; in particular, when `"CGPA"` precedes
`"Academic_GPA"` in header order the CGPA role resolves to `"CGPA"`. -/
theorem cgpaKey_firstMatch (pre : List String) (k : String) (post : List String)
    (hpre : ∀ k' ∈ pre, cgpaMatch k' = false) (hk : cgpaMatch k = true) :
    cgpaKeyOf (pre ++ k :: post) = k ∧
    cgpaKeyOf ["CGPA", "Academic_GPA"] = "CGPA" := by
  refine ⟨?_, by decide⟩
  unfold cgpaKeyOf
  rw [find?_first_of_prefix_false pre k post hpre hk]

/-- Witness for C3's amended statement. -/
theorem cgpaKey_firstMatch_witness :
    cgpaKeyOf (["Name"] ++ "CGPA" :: ["Academic_GPA"]) = "CGPA" ∧
    cgpaKeyOf ["CGPA", "Academic_GPA"] = "CGPA" :=
  cgpaKey_firstMatch ["Name"] "CGPA" ["Academic_GPA"] (by decide) (by decide)

/-! ## C5: distinct-company count -/

/-- **C5 counterexample**: the value `" Not Placed "` trims to the sentinel,
but the code's sentinel comparison is on the *untrimmed* lower-cased value, so
the code counts it (1) while the claim's count excludes it (0). -/
theorem companyCount_cex :
    topCompanies [[("Company", " Not Placed ")]] = 1 ∧
    claimCompanyCount [[("Company", " Not Placed ")]] = 0 := by decide

/-- Stated from the amended claim: the number of distinct values among the
per-record company picks (first of the company fields whose raw value is
non-empty, trims non-empty, and whose raw lower-cased form is not the
sentinel, taken trimmed). -/
def amendedCompanyCount (data : List Record) : Nat :=
  ((data.filterMap companyPick).dedup).length

theorem foldl_companyPick_eq (data : List Record) :
    ∀ init : List String,
      data.foldl (fun acc r =>
        match companyPick r with
        | some v => setAdd acc v
        | none => acc) init =
      (data.filterMap companyPick).foldl setAdd init := by
  induction data with
  | nil => intro init; rfl
  | cons r rs ih =>
    intro init
    rw [List.foldl_cons, List.filterMap_cons]
    cases hc : companyPick r <;> simp only [hc] <;> rw [ih]
    rw [List.foldl_cons]

theorem foldl_setAdd_spec (l : List String) :
    ∀ init : List String, init.Nodup →
      (l.foldl setAdd init).Nodup ∧
      ∀ x, x ∈ l.foldl setAdd init ↔ x ∈ init ∨ x ∈ l := by
  induction l with
  | nil =>
    intro init h
    exact ⟨h, fun x => by simp⟩
  | cons a as ih =>
    intro init h
    rw [List.foldl_cons]
    have hadd : (setAdd init a).Nodup := by
      unfold setAdd
      by_cases ha : a ∈ init
      · rw [if_pos ha]; exact h
      · rw [if_neg ha]
        rw [List.nodup_append]
        exact ⟨h, List.nodup_singleton a,
          fun x hx hxa => ha ((List.mem_singleton.mp hxa) ▸ hx)⟩
    obtain ⟨hn, hm⟩ := ih (setAdd init a) hadd
    refine ⟨hn, fun x => ?_⟩
    rw [hm x]
    unfold setAdd
    by_cases ha : a ∈ init
    · rw [if_pos ha]
      simp only [List.mem_cons]
      constructor
      · rintro (hx | hx)
        · exact Or.inl hx
        · exact Or.inr (Or.inr hx)
      · rintro (hx | hx | hx)
        · exact Or.inl hx
        · exact Or.inl (hx ▸ ha)
        · exact Or.inr hx
    · rw [if_neg ha]
      simp only [List.mem_append, List.mem_singleton, List.mem_cons]
      tauto

/-- **C5 (amended)**: the distinct-company count equals the number of unique
per-record company picks, where a record's pick is its first company-field
value that is non-empty, trims to a non-empty string, and whose *untrimmed*
lower-cased form is not the `"not placed"` sentinel; for Scenario C's input
the count is 2. -/
theorem companyCount_amended :
    (∀ data : List Record, topCompanies data = amendedCompanyCount data) ∧
    topCompanies (parseCSV "Company\nGoogle\nGoogle\nMicrosoft\nNot Placed\n") = 2 := by
  refine ⟨?_, by decide⟩
  intro data
  unfold topCompanies amendedCompanyCount
  rw [foldl_companyPick_eq]
  set l := data.filterMap companyPick with hl
  obtain ⟨hn, hm⟩ := foldl_setAdd_spec l [] List.nodup_nil
  have h1 : (l.foldl setAdd []).toFinset = l.dedup.toFinset := by
    ext x
    simp only [List.mem_toFinset, hm x, List.mem_dedup, List.not_mem_nil,
      false_or]
  calc (l.foldl setAdd []).length
      = (l.foldl setAdd []).toFinset.card := (List.toFinset_card_of_nodup hn).symm
    _ = l.dedup.toFinset.card := by rw [h1]
    _ = l.dedup.length := List.toFinset_card_of_nodup (List.nodup_dedup l)

/-! ## C8: no matching role ⇒ no gated insights -/

/-- A key that matches none of the current generator's role substrings. -/
def roleFree (k : String) : Bool :=
  !(jsIncludes (jsToLower k) "cgpa" || jsIncludes (jsToLower k) "gpa" ||
    jsIncludes (jsToLower k) "internship" ||
    (jsIncludes (jsToLower k) "academic" &&
      jsIncludes (jsToLower k) "performance") ||
    jsIncludes (jsToLower k) "communication" ||
    jsIncludes (jsToLower k) "project" ||
    jsIncludes (jsToLower k) "iq" ||
    jsIncludes (jsToLower k) "extra" ||
    jsIncludes (jsToLower k) "curricular")

/-- A key that matches none of the legacy generator's role substrings nor any
of its literally-consulted field names. -/
def roleFreeLegacy (k : String) : Bool :=
  (!(jsIncludes (jsToLower k) "salary" || jsIncludes (jsToLower k) "package" ||
    jsIncludes (jsToLower k) "ctc" || jsIncludes (jsToLower k) "gender" ||
    jsIncludes (jsToLower k) "cgpa" || jsIncludes (jsToLower k) "gpa" ||
    jsIncludes (jsToLower k) "grade")) &&
  !(decide (k ∈ (["Department", "Course", "Branch", "Company",
    "Employer"] : List String)))

theorem roleFree_spec {k : String} (h : roleFree k = true) :
    jsIncludes (jsToLower k) "cgpa" = false ∧
    jsIncludes (jsToLower k) "gpa" = false ∧
    jsIncludes (jsToLower k) "internship" = false ∧
    (jsIncludes (jsToLower k) "academic" &&
      jsIncludes (jsToLower k) "performance") = false ∧
    jsIncludes (jsToLower k) "communication" = false ∧
    jsIncludes (jsToLower k) "project" = false ∧
    jsIncludes (jsToLower k) "iq" = false ∧
    jsIncludes (jsToLower k) "extra" = false ∧
    jsIncludes (jsToLower k) "curricular" = false := by
  unfold roleFree at h
  simp only [Bool.not_eq_true', Bool.or_eq_false_iff] at h
  tauto

theorem roleFreeLegacy_spec {k : String} (h : roleFreeLegacy k = true) :
    jsIncludes (jsToLower k) "salary" = false ∧
    jsIncludes (jsToLower k) "package" = false ∧
    jsIncludes (jsToLower k) "ctc" = false ∧
    jsIncludes (jsToLower k) "gender" = false ∧
    jsIncludes (jsToLower k) "cgpa" = false ∧
    jsIncludes (jsToLower k) "gpa" = false ∧
    jsIncludes (jsToLower k) "grade" = false ∧
    k ∉ (["Department", "Course", "Branch", "Company",
      "Employer"] : List String) := by
  unfold roleFreeLegacy at h
  simp only [Bool.and_eq_true, Bool.not_eq_true', Bool.or_eq_false_iff,
    decide_eq_false_iff_not] at h
  tauto

theorem hasKeyMatching_eq_false {data : List Record} {p : String → Bool}
    (h : ∀ r ∈ data, ∀ kv ∈ r, p kv.1 = false) :
    hasKeyMatching data p = false := by
  unfold hasKeyMatching
  rw [List.any_eq_false]
  intro r hr
  rw [Bool.not_eq_true, List.any_eq_false]
  intro kv hkv
  simp [h r hr kv hkv]

theorem jsGet_eq_none_of_no_key {r : Record} {name : String}
    (h : ∀ kv ∈ r, kv.1 ≠ name) : jsGet r name = none := by
  unfold jsGet
  rw [List.find?_eq_none.mpr (fun kv hkv => by simp [h kv hkv])]
  rfl

theorem foldl_setAddO_keep (as : List (Option String)) :
    (∀ x ∈ as, x = none) →
    as.foldl setAddO [none] = [none] := by
  induction as with
  | nil => intro _; rfl
  | cons a l ih =>
    intro h
    rw [List.foldl_cons, h a (List.mem_cons_self a l)]
    have : setAddO [none] none = [none] := by
      unfold setAddO
      rw [if_pos (List.mem_singleton.mpr rfl)]
    rw [this]
    exact ih (fun x hx => h x (List.mem_cons_of_mem a hx))

theorem foldl_setAddO_allNone (l : List (Option String)) (hnn : l ≠ [])
    (h : ∀ x ∈ l, x = none) :
    l.foldl setAddO [] = [none] := by
  cases l with
  | nil => exact absurd rfl hnn
  | cons a as =>
    rw [List.foldl_cons, h a (List.mem_cons_self a as)]
    have : setAddO [] none = [none] := rfl
    rw [this]
    exact foldl_setAddO_keep as (fun x hx => h x (List.mem_cons_of_mem a hx))

/-- **C8**: on a dataset none of whose keys matches any known role, the
current insight generator returns the empty list, and the legacy generator
returns only its single always-present (ungated) catalog entry; unresolved
roles make gated entries be omitted, never an error. -/
theorem insights_no_role (data : List Record)
    (hfree : ∀ r ∈ data, ∀ kv ∈ r, roleFree kv.1 = true)
    (hfreeL : ∀ r ∈ data, ∀ kv ∈ r, roleFreeLegacy kv.1 = true) :
    generateInsights data = [] ∧
    (data ≠ [] → generateInsightsLegacy data = [skillsInsight]) := by
  constructor
  · unfold generateInsights
    by_cases h : data.length = 0
    · rw [if_pos h]
    · rw [if_neg h]
      have g1 : hasKeyMatching data (fun k =>
          jsIncludes (jsToLower k) "cgpa" ||
            jsIncludes (jsToLower k) "gpa") = false :=
        hasKeyMatching_eq_false (fun r hr kv hkv => by
          have hs := roleFree_spec (hfree r hr kv hkv)
          simp [hs.1, hs.2.1])
      have g2 : hasKeyMatching data (fun k =>
          jsIncludes (jsToLower k) "internship") = false :=
        hasKeyMatching_eq_false (fun r hr kv hkv =>
          (roleFree_spec (hfree r hr kv hkv)).2.2.1)
      have g3 : hasKeyMatching data (fun k =>
          jsIncludes (jsToLower k) "academic" &&
            jsIncludes (jsToLower k) "performance") = false :=
        hasKeyMatching_eq_false (fun r hr kv hkv =>
          (roleFree_spec (hfree r hr kv hkv)).2.2.2.1)
      have g4 : hasKeyMatching data (fun k =>
          jsIncludes (jsToLower k) "communication") = false :=
        hasKeyMatching_eq_false (fun r hr kv hkv =>
          (roleFree_spec (hfree r hr kv hkv)).2.2.2.2.1)
      have g5 : hasKeyMatching data (fun k =>
          jsIncludes (jsToLower k) "project") = false :=
        hasKeyMatching_eq_false (fun r hr kv hkv =>
          (roleFree_spec (hfree r hr kv hkv)).2.2.2.2.2.1)
      have g6 : hasKeyMatching data (fun k =>
          jsIncludes (jsToLower k) "iq") = false :=
        hasKeyMatching_eq_false (fun r hr kv hkv =>
          (roleFree_spec (hfree r hr kv hkv)).2.2.2.2.2.2.1)
      have g7 : hasKeyMatching data (fun k =>
          jsIncludes (jsToLower k) "extra" ||
            jsIncludes (jsToLower k) "curricular") = false :=
        hasKeyMatching_eq_false (fun r hr kv hkv => by
          have hs := roleFree_spec (hfree r hr kv hkv)
          simp [hs.2.2.2.2.2.2.2.1, hs.2.2.2.2.2.2.2.2])
      simp [g1, g2, g3, g4, g5, g6, g7]
  · intro hne
    unfold generateInsightsLegacy
    rw [if_neg (fun h => hne (List.length_eq_zero.mp h))]
    have hnolit : ∀ r ∈ data, ∀ name ∈ (["Department", "Course", "Branch",
        "Company", "Employer"] : List String), jsGet r name = none := by
      intro r hr name hname
      refine jsGet_eq_none_of_no_key (fun kv hkv he => ?_)
      exact (roleFreeLegacy_spec (hfreeL r hr kv hkv)).2.2.2.2.2.2.2
        (he ▸ hname)
    have hdept : ∀ r ∈ data, deptVal r = none := by
      intro r hr
      unfold deptVal
      rw [hnolit r hr "Department" (by decide), hnolit r hr "Course" (by decide),
        hnolit r hr "Branch" (by decide)]
      rfl
    have hsize : deptSetSize data = 1 := by
      unfold deptSetSize
      rw [foldl_setAddO_allNone _ (by simpa using hne)
        (fun x hx => by
          obtain ⟨r, hr, hxx⟩ := List.mem_map.mp hx
          rw [← hxx]
          exact hdept r hr)]
      rfl
    have hcomp : legacyCompanies data = [] := by
      unfold legacyCompanies
      rw [List.filter_eq_nil_iff]
      intro x hx
      obtain ⟨r, hr, hxx⟩ := List.mem_map.mp hx
      rw [← hxx, hnolit r hr "Company" (by decide),
        hnolit r hr "Employer" (by decide)]
      decide
    have gA : hasKeyMatching data (fun k =>
        jsIncludes (jsToLower k) "salary" ||
          jsIncludes (jsToLower k) "package" ||
          jsIncludes (jsToLower k) "ctc") = false :=
      hasKeyMatching_eq_false (fun r hr kv hkv => by
        have hs := roleFreeLegacy_spec (hfreeL r hr kv hkv)
        simp [hs.1, hs.2.1, hs.2.2.1])
    have gB : hasKeyMatching data (fun k =>
        jsIncludes (jsToLower k) "gender") = false :=
      hasKeyMatching_eq_false (fun r hr kv hkv =>
        (roleFreeLegacy_spec (hfreeL r hr kv hkv)).2.2.2.1)
    have gC : hasKeyMatching data (fun k =>
        jsIncludes (jsToLower k) "cgpa" || jsIncludes (jsToLower k) "gpa" ||
          jsIncludes (jsToLower k) "grade") = false :=
      hasKeyMatching_eq_false (fun r hr kv hkv => by
        have hs := roleFreeLegacy_spec (hfreeL r hr kv hkv)
        simp [hs.2.2.2.2.1, hs.2.2.2.2.2.1, hs.2.2.2.2.2.2.1])
    rw [hsize, hcomp]
    simp [gA, gB, gC]

/-- Witness for C8 at a dataset with a single unrelated `Notes` column. -/
theorem insights_no_role_witness :
    generateInsights [[("Notes", "x")]] = [] ∧
    generateInsightsLegacy [[("Notes", "x")]] = [skillsInsight] :=
  ⟨(insights_no_role [[("Notes", "x")]] (by decide) (by decide)).1,
   (insights_no_role [[("Notes", "x")]] (by decide) (by decide)).2
     (by decide)⟩

/-! ## C10: unguarded insight averages -/

/-- **C10** (implicit): the insight generator's interpolated statistics have
no empty-subset guard.  When a CGPA-like header is present but no record
passes the generator's placed predicate, the interpolated average CGPA is
`0/0 = NaN`; likewise the internship placement rate is `NaN` when an
internship column exists but no record passes the internship predicate. -/
theorem insights_nan_unguarded (data : List Record) :
    (hasKeyMatching data (fun k =>
        jsIncludes (jsToLower k) "cgpa" ||
          jsIncludes (jsToLower k) "gpa") = true →
      (∀ r ∈ data, insightPlaced r = false) →
      insightAvgCGPA data = JSNum.nan) ∧
    (hasKeyMatching data (fun k =>
        jsIncludes (jsToLower k) "internship") = true →
      (∀ r ∈ data, insightInternship r = false) →
      insightInternshipRate data = JSNum.nan) := by
  constructor
  · intro _ hplaced
    have hfil : data.filter insightPlaced = [] :=
      List.filter_eq_nil_iff.mpr (fun r hr => by simp [hplaced r hr])
    unfold insightAvgCGPA
    rw [hfil]
    decide
  · intro _ hintern
    have hfil : data.filter insightInternship = [] :=
      List.filter_eq_nil_iff.mpr (fun r hr => by simp [hintern r hr])
    unfold insightInternshipRate
    rw [hfil]
    decide

/-- Witness for C10: a lone record with CGPA and internship columns but
neither placed nor with internship experience. -/
theorem insights_nan_unguarded_witness :
    insightAvgCGPA [[("CGPA", "8.0"), ("Internship", "No"),
      ("Placement", "Not Placed")]] = JSNum.nan ∧
    insightInternshipRate [[("CGPA", "8.0"), ("Internship", "No"),
      ("Placement", "Not Placed")]] = JSNum.nan :=
  ⟨(insights_nan_unguarded [[("CGPA", "8.0"), ("Internship", "No"),
      ("Placement", "Not Placed")]]).1 (by decide) (by decide),
   (insights_nan_unguarded [[("CGPA", "8.0"), ("Internship", "No"),
      ("Placement", "Not Placed")]]).2 (by decide) (by decide)⟩
